import Mathlib

/-!
Verification of the multi-threaded TCP chat server (src/src/server.cpp)
against its natural-language specification.

The embedding models:
* the wire framing (`send_message` / `recv_message`, server.cpp 202-232);
* the peer registry (`clients`, a list of `Client`) and the operations
  that mutate it: accept-time insertion (server.cpp 412-417), the
  handshake rename (server.cpp 299), broadcast self-healing removal
  (server.cpp 234-254) and handler-teardown removal (server.cpp 331-339);
* the per-connection handler pipeline (`handle_client`, server.cpp 282-341);
* the lock/IO action traces of the four operations that take
  `clients_mutex`, for the lock-discipline claim;
* the startup/exit logic of `main` (server.cpp 343-471).

Channel reachability is modelled by a predicate `sendOk : Nat → Bool` on
socket identifiers: `sendOk s = true` means a frame send on socket `s`
succeeds (`send_message` returns true in the C++), `false` that it fails.
Bytes are modelled as `Nat`; payload strings as Lean `String`.
-/

namespace ChatServer

/-! ## Wire framing, server.cpp 202-232

`send_message` writes a 4-byte big-endian length then the payload; the
length is `static_cast<uint32_t>(msg.size())`, i.e. the size reduced
mod 2^32, and only that many payload bytes are written (none when the
reduced length is 0).  `recv_message` reads exactly 4 header bytes,
then exactly `len` payload bytes; a zero length yields the empty
payload at once.  `recvExact` models `recv_all`: it delivers exactly
`n` bytes of the stream or fails. -/

def be32 (n : Nat) : List Nat :=
  [n / 2 ^ 24 % 256, n / 2 ^ 16 % 256, n / 2 ^ 8 % 256, n % 256]

def beCombine (b : List Nat) : Nat :=
  b.foldl (fun a x => a * 256 + x) 0

def send_message (msg : List Nat) : List Nat :=
  let len := msg.length % 2 ^ 32
  be32 len ++ msg.take len

def recvExact (n : Nat) (s : List Nat) : Option (List Nat × List Nat) :=
  if n ≤ s.length then some (s.take n, s.drop n) else none

def recv_message (s : List Nat) : Option (List Nat × List Nat) :=
  match recvExact 4 s with
  | none => none
  | some (hdr, rest) =>
    let len := beCombine hdr
    if len = 0 then some ([], rest)
    else recvExact len rest


/-! ## Peer registry and broadcast, server.cpp 36-44 and 234-254

A `Client` is a registry entry: socket identity plus display name
(`struct Client`, server.cpp 36-41; the `std::string name` member is
default-constructed, i.e. empty, when a client is made at accept time,
server.cpp 412-413).  The registry is the insertion-ordered
`std::vector<std::shared_ptr<Client>> clients`. -/

structure Client where
  sock : Nat
  name : String
deriving DecidableEq

/-- Accept-time insertion (server.cpp 412-417): `make_shared<Client>()`
default-constructs `name` to the empty string, only `sock` is set, and the
entry is appended under the lock. -/
def acceptClient (sock : Nat) (cs : List Client) : List Client :=
  cs ++ [{ sock := sock, name := "" }]

/-- How the server renders a display name (server.cpp 244 and 267):
an empty stored name is shown as "anonymous". -/
def renderName (n : String) : String :=
  if n = "" then "anonymous" else n

/-- The handshake name (server.cpp 299):
`client->name = name.empty() ? "anonymous" : name`. -/
def handshakeName (p : String) : String :=
  if p = "" then "anonymous" else p

/-- In-place rename of the entry with the given socket (the effect of
`client->name = ...` on the shared registry entry, server.cpp 299). -/
def renameSock (sock : Nat) (n : String) (cs : List Client) : List Client :=
  cs.map fun c => if c.sock = sock then { c with name := n } else c

/-- Removal of a socket's entry (`clients.erase(remove_if ...)`,
server.cpp 293-296, 307-310 and 335-338). -/
def removeSock (sock : Nat) (cs : List Client) : List Client :=
  cs.filter fun c => c.sock ≠ sock

/-- The line a broadcast delivers (server.cpp 236):
`"[" + from + "] " + msg`. -/
def fullLine (frm msg : String) : String :=
  "[" ++ frm ++ "] " ++ msg

/-- Outcome of one broadcast pass over the registry (server.cpp 238-253):
the surviving entries, the frames delivered `(socket, payload)` in loop
order, the sockets closed because their send failed, and the sockets on
which a send was attempted, in loop order. -/
structure BCastResult where
  kept : List Client
  sent : List (Nat × String)
  closed : List Nat
  att : List Nat
deriving DecidableEq

/-- The `broadcast` loop (server.cpp 238-253): for each entry in order,
attempt `send_message`; on failure close the socket and erase the entry,
otherwise keep it and move on. -/
def broadcastClients (sendOk : Nat → Bool) (line : String) :
    List Client → BCastResult
  | [] => ⟨[], [], [], []⟩
  | c :: rest =>
    let r := broadcastClients sendOk line rest
    if sendOk c.sock then
      ⟨c :: r.kept, (c.sock, line) :: r.sent, r.closed, c.sock :: r.att⟩
    else
      ⟨r.kept, r.sent, c.sock :: r.closed, c.sock :: r.att⟩

/-- Observable server state threaded through the handler model: the
registry, every frame delivered so far (socket, payload) in order, and
every socket closed so far in order. -/
structure SrvState where
  clients : List Client
  sent : List (Nat × String)
  closed : List Nat
deriving DecidableEq

/-- The operation `broadcast(from, msg)` (server.cpp 234-254) acting on the server
state: formats the line, then runs the loop over the registry. -/
def doBroadcast (sendOk : Nat → Bool) (frm msg : String) (st : SrvState) :
    SrvState :=
  let r := broadcastClients sendOk (fullLine frm msg) st.clients
  { clients := r.kept, sent := st.sent ++ r.sent, closed := st.closed ++ r.closed }


/-! ## User-list assembly, server.cpp 256-280

`send_user_list_to_client` walks the registry under the lock, skipping
the entry with the client's own socket, rendering empty names as
"anonymous" and joining with ", " via a `first` flag; an empty result is
replaced by a fixed no-other-users text, otherwise prefixed by
"在线用户: ", and the string is sent to the client while the lock is
still held. -/

def userListBody (selfSock : Nat) : List Client → String → Bool → String
  | [], acc, _ => acc
  | c :: rest, acc, first =>
    if c.sock = selfSock then userListBody selfSock rest acc first
    else
      userListBody selfSock rest
        (match first with
          | true => acc ++ renderName c.name
          | false => acc ++ ", " ++ renderName c.name) false

def userListString (selfSock : Nat) (cs : List Client) : String :=
  let body := userListBody selfSock cs "" true
  if body = "" then "（无其他在线用户）" else "在线用户: " ++ body

/-- Reference form of the comma-joined list: fold the remaining names
onto the first with ", " separators. -/
def commaFold (acc : String) : List String → String
  | [] => acc
  | n :: rest => commaFold (acc ++ ", " ++ n) rest

def commaJoin : List String → String
  | [] => ""
  | n :: rest => commaFold n rest

/-! ## The per-connection handler, server.cpp 282-341

The handler's inbound channel is modelled as a script of receive
outcomes; an exhausted script stands for a failing receive (the channel
delivers no further frame).  `running` staying true throughout is
assumed: shutdown interleaving is outside this model. -/

inductive RecvResult where
  | frame (payload : String)
  | fail
deriving DecidableEq

/-- The early-exit cleanup of the handler's registration phase
(server.cpp 290-297 and 304-311): close the socket, then erase the
entry under the lock; nothing is broadcast. -/
def earlyCleanup (sock : Nat) (st : SrvState) : SrvState :=
  { clients := removeSock sock st.clients,
    sent := st.sent,
    closed := st.closed ++ [sock] }

/-- The receive loop (server.cpp 317-324): each received frame equal to
"__quit__" breaks the loop; any other frame is broadcast under the
peer's name; a failing receive (or script end) leaves the loop. -/
def clientLoop (sendOk : Nat → Bool) (selfName : String) :
    List RecvResult → SrvState → SrvState
  | [], st => st
  | RecvResult.fail :: _, st => st
  | RecvResult.frame m :: rest, st =>
    if m = "__quit__" then st
    else clientLoop sendOk selfName rest (doBroadcast sendOk selfName m st)

/-- Handler teardown (server.cpp 330-340): close the socket, erase the
entry under the lock, then broadcast the leave announcement under the
tag "Server". -/
def handlerTeardown (sendOk : Nat → Bool) (self : Client) (st : SrvState) :
    SrvState :=
  doBroadcast sendOk "Server" ("用户 '" ++ self.name ++ "' 已离开聊天")
    { clients := removeSock self.sock st.clients,
      sent := st.sent,
      closed := st.closed ++ [self.sock] }

/-- The post-registration phase of the handler: the receive loop
followed by teardown (server.cpp 317-341). -/
def activePhase (sendOk : Nat → Bool) (self : Client) (script : List RecvResult)
    (st : SrvState) : SrvState :=
  handlerTeardown sendOk self (clientLoop sendOk self.name script st)

/-- The handler `handle_client` (server.cpp 282-341).  The first receive outcome is
the username handshake: a failure exits early with cleanup and no
announcement; a frame renames the registry entry
(`name.empty() ? "anonymous" : name`), then the user list is sent to the
client (failure again exits early with cleanup and no announcement),
then the join announcement is broadcast, then the receive loop and
teardown run. -/
def handle_client (sendOk : Nat → Bool) (self : Client)
    (script : List RecvResult) (st : SrvState) : SrvState :=
  match script with
  | [] => earlyCleanup self.sock st
  | RecvResult.fail :: _ => earlyCleanup self.sock st
  | RecvResult.frame p :: rest =>
    let n := handshakeName p
    let st1 : SrvState := { st with clients := renameSock self.sock n st.clients }
    if sendOk self.sock then
      let st2 : SrvState :=
        { st1 with sent := st1.sent ++ [(self.sock, userListString self.sock st1.clients)] }
      let st3 := doBroadcast sendOk "Server" ("用户 '" ++ n ++ "' 已加入聊天") st2
      activePhase sendOk { self with name := n } rest st3
    else
      earlyCleanup self.sock st1

/-! ## Reachable registry states

The registry operations the code performs, as a reachability relation:
accept-time insertion, handshake rename, broadcast self-healing, and
handler removal (early cleanup or teardown). -/

inductive Reachable : List Client → Prop where
  | init : Reachable []
  | accept (sock : Nat) (cs : List Client) :
      Reachable cs → Reachable (acceptClient sock cs)
  | handshake (sock : Nat) (p : String) (cs : List Client) :
      Reachable cs → Reachable (renameSock sock (handshakeName p) cs)
  | bcast (sendOk : Nat → Bool) (line : String) (cs : List Client) :
      Reachable cs → Reachable (broadcastClients sendOk line cs).kept
  | remove (sock : Nat) (cs : List Client) :
      Reachable cs → Reachable (removeSock sock cs)

/-! ## Lock/IO traces of the operations taking `clients_mutex`

Each operation that acquires the registry lock is abstracted to its
sequence of actions: lock acquire/release, frame sends/receives
(`send_message`/`recv_message`, the blocking channel I/O), structural
registry operations (push_back / erase / the enumeration building the
user list) and socket closes.  `ioUnderLock` decides whether some frame
I/O action happens while the lock depth is positive. -/

inductive Action where
  | lockAcquire
  | lockRelease
  | ioSend (sock : Nat)
  | ioRecv (sock : Nat)
  | structOp
  | closeOp (sock : Nat)
deriving DecidableEq

/-- Trace of `broadcast` (server.cpp 234-254): the `lock_guard` is taken before
the loop and released after it; every `send_message` of the loop, and
every close/erase of a failed peer, happens under the lock. -/
def broadcastTrace (sendOk : Nat → Bool) (cs : List Client) : List Action :=
  [Action.lockAcquire] ++
    (cs.flatMap fun c =>
      Action.ioSend c.sock ::
        (if sendOk c.sock then [] else [Action.closeOp c.sock, Action.structOp])) ++
    [Action.lockRelease]

/-- Accept-time registration (server.cpp 414-417): the lock guards only
the `push_back`. -/
def registerTrace : List Action :=
  [Action.lockAcquire, Action.structOp, Action.lockRelease]

/-- Handler removal (server.cpp 291-296, 305-310 and 332-339): the
socket is closed before the lock is taken; the lock guards only the
erase. -/
def removalTrace (sock : Nat) : List Action :=
  [Action.closeOp sock, Action.lockAcquire, Action.structOp, Action.lockRelease]

/-- Trace of `send_user_list_to_client` (server.cpp 258-280): the `lock_guard`
is taken first, the list is assembled under it, and the `send_message`
to the client also runs before the guard is released. -/
def userListTrace (sock : Nat) : List Action :=
  [Action.lockAcquire, Action.structOp, Action.ioSend sock, Action.lockRelease]

/-- Whether some frame send/receive occurs at positive lock depth. -/
def ioUnderLock : List Action → Nat → Bool
  | [], _ => false
  | Action.lockAcquire :: r, d => ioUnderLock r (d + 1)
  | Action.lockRelease :: r, d => ioUnderLock r (d - 1)
  | Action.ioSend _ :: r, d => if 0 < d then true else ioUnderLock r d
  | Action.ioRecv _ :: r, d => if 0 < d then true else ioUnderLock r d
  | Action.structOp :: r, d => ioUnderLock r d
  | Action.closeOp _ :: r, d => ioUnderLock r d

/-! ## Startup and exit, server.cpp 343-471

The port is the optional positional argument (already converted by
`std::stoi`, then truncated by the `uint16_t` cast) or `DEFAULT_PORT`.
Each failing setup step prints and returns 1; once listening, the
accept loop runs until the stop signal clears `running`, and the
shutdown path ends with `return 0`. -/

def DEFAULT_PORT : Nat := 5555

structure SetupEnv where
  socketOk : Bool
  bindOk : Bool
  listenOk : Bool
deriving DecidableEq

/-- Exit code and, when the server reaches the accept loop, the port it
listens on (server.cpp 345-349, 363-396 and 470). -/
def serverMain (argPort : Option Nat) (env : SetupEnv) : Nat × Option Nat :=
  let port := match argPort with
    | none => DEFAULT_PORT
    | some v => v % 65536
  if !env.socketOk then (1, none)
  else if !env.bindOk then (1, none)
  else if !env.listenOk then (1, none)
  else (0, some port)

/-! ## Supporting lemmas -/

theorem be32_length (n : Nat) : (be32 n).length = 4 := rfl

theorem beCombine_be32 (n : Nat) (h : n < 2 ^ 32) : beCombine (be32 n) = n := by
  simp only [be32, beCombine, List.foldl]
  omega

theorem broadcastClients_kept (sendOk : Nat → Bool) (line : String)
    (cs : List Client) :
    (broadcastClients sendOk line cs).kept = cs.filter fun c => sendOk c.sock := by
  induction cs with
  | nil => rfl
  | cons c rest ih =>
    simp only [broadcastClients, List.filter_cons]
    by_cases h : sendOk c.sock <;> simp [h, ih]

theorem broadcastClients_sent (sendOk : Nat → Bool) (line : String)
    (cs : List Client) :
    (broadcastClients sendOk line cs).sent =
      (cs.filter fun c => sendOk c.sock).map fun c => (c.sock, line) := by
  induction cs with
  | nil => rfl
  | cons c rest ih =>
    simp only [broadcastClients, List.filter_cons]
    by_cases h : sendOk c.sock <;> simp [h, ih]

theorem broadcastClients_closed (sendOk : Nat → Bool) (line : String)
    (cs : List Client) :
    (broadcastClients sendOk line cs).closed =
      (cs.filter fun c => !sendOk c.sock).map fun c => c.sock := by
  induction cs with
  | nil => rfl
  | cons c rest ih =>
    simp only [broadcastClients, List.filter_cons]
    by_cases h : sendOk c.sock <;> simp [h, ih]

theorem broadcastClients_att (sendOk : Nat → Bool) (line : String)
    (cs : List Client) :
    (broadcastClients sendOk line cs).att = cs.map fun c => c.sock := by
  induction cs with
  | nil => rfl
  | cons c rest ih =>
    simp only [broadcastClients, List.map_cons]
    by_cases h : sendOk c.sock <;> simp [h, ih]

theorem doBroadcast_eq (sendOk : Nat → Bool) (frm msg : String) (st : SrvState) :
    doBroadcast sendOk frm msg st =
      { clients := st.clients.filter fun c => sendOk c.sock,
        sent := st.sent ++ ((st.clients.filter fun c => sendOk c.sock).map
          fun c => (c.sock, fullLine frm msg)),
        closed := st.closed ++ ((st.clients.filter fun c => !sendOk c.sock).map
          fun c => c.sock) } := by
  simp only [doBroadcast, broadcastClients_kept, broadcastClients_sent,
    broadcastClients_closed]

theorem str_length_zero {s : String} (h : s.length = 0) : s = "" := by
  cases s
  simp [String.length] at h
  simp_all

theorem renderName_length_pos (n : String) : 0 < (renderName n).length := by
  unfold renderName
  split
  · decide
  · rename_i h
    rcases Nat.eq_zero_or_pos n.length with h0 | h0
    · exact absurd (str_length_zero h0) h
    · exact h0

theorem commaFold_length (l : List String) (acc : String) :
    acc.length ≤ (commaFold acc l).length := by
  induction l generalizing acc with
  | nil => exact Nat.le_refl _
  | cons n rest ih =>
    refine Nat.le_trans ?_ (ih (acc ++ ", " ++ n))
    simp only [String.length_append]
    omega

theorem userListBody_false (selfSock : Nat) (cs : List Client) (acc : String) :
    userListBody selfSock cs acc false =
      commaFold acc ((removeSock selfSock cs).map fun c => renderName c.name) := by
  induction cs generalizing acc with
  | nil => rfl
  | cons c rest ih =>
    by_cases h : c.sock = selfSock
    · simp only [userListBody, if_pos h, removeSock, List.filter_cons]
      simp only [removeSock] at ih
      simp [h, ih]
    · simp only [userListBody, if_neg h, removeSock, List.filter_cons]
      simp only [removeSock] at ih
      simp [h, ih, commaFold]

theorem userListBody_true (selfSock : Nat) (cs : List Client) :
    userListBody selfSock cs "" true =
      commaJoin ((removeSock selfSock cs).map fun c => renderName c.name) := by
  induction cs with
  | nil => rfl
  | cons c rest ih =>
    by_cases h : c.sock = selfSock
    · simp only [userListBody, if_pos h, removeSock, List.filter_cons]
      simp only [removeSock] at ih
      simp [h, ih]
    · simp only [userListBody, if_neg h, removeSock, List.filter_cons]
      rw [String.empty_append, userListBody_false]
      simp [removeSock, h, commaJoin]

theorem removeSock_renameSock (sock : Nat) (n : String) (cs : List Client) :
    removeSock sock (renameSock sock n cs) = removeSock sock cs := by
  unfold removeSock renameSock
  rw [List.filter_map]
  have h1 : ((fun c : Client => decide (c.sock ≠ sock)) ∘ fun c : Client =>
      if c.sock = sock then { sock := c.sock, name := n } else c) =
      fun c : Client => decide (c.sock ≠ sock) := by
    funext c
    by_cases h : c.sock = sock <;> simp [h]
  rw [h1]
  have h2 : ∀ c ∈ cs.filter fun c : Client => decide (c.sock ≠ sock),
      (if c.sock = sock then ({ sock := c.sock, name := n } : Client) else c) = c := by
    intro c hcmem
    rcases List.mem_filter.mp hcmem with ⟨_, hcs⟩
    rw [if_neg (by simpa using hcs)]
  calc (cs.filter fun c : Client => decide (c.sock ≠ sock)).map
        (fun c : Client => if c.sock = sock then { sock := c.sock, name := n } else c)
      = (cs.filter fun c : Client => decide (c.sock ≠ sock)).map id :=
        List.map_congr_left h2
    _ = cs.filter fun c : Client => decide (c.sock ≠ sock) := List.map_id _

theorem userListString_eq (selfSock : Nat) (cs : List Client) :
    userListString selfSock cs =
      if removeSock selfSock cs = [] then "（无其他在线用户）"
      else "在线用户: " ++
        commaJoin ((removeSock selfSock cs).map fun c => renderName c.name) := by
  unfold userListString
  rw [userListBody_true]
  rcases hr : removeSock selfSock cs with _ | ⟨c, r⟩
  · simp [commaJoin]
  · have hne : commaJoin ((c :: r).map fun c => renderName c.name) ≠ "" := by
      intro h
      simp only [List.map_cons, commaJoin] at h
      have h1 := commaFold_length (r.map fun c => renderName c.name) (renderName c.name)
      rw [h] at h1
      have h2 := renderName_length_pos c.name
      have h3 : ("" : String).length = 0 := rfl
      omega
    rw [if_neg hne, if_neg (by simp)]

theorem clientLoop_sent (sendOk : Nat → Bool) (nm : String)
    (script : List RecvResult) (st : SrvState) :
    ∃ t, (clientLoop sendOk nm script st).sent = st.sent ++ t := by
  induction script generalizing st with
  | nil => exact ⟨[], (List.append_nil _).symm⟩
  | cons r rest ih =>
    cases r with
    | fail => exact ⟨[], (List.append_nil _).symm⟩
    | frame m =>
      by_cases h : m = "__quit__"
      · simp only [clientLoop, if_pos h]
        exact ⟨[], (List.append_nil _).symm⟩
      · simp only [clientLoop, if_neg h]
        obtain ⟨t1, ht1⟩ := ih (doBroadcast sendOk nm m st)
        refine ⟨((st.clients.filter fun c => sendOk c.sock).map
          fun c => (c.sock, fullLine nm m)) ++ t1, ?_⟩
        rw [ht1, doBroadcast_eq]
        simp [List.append_assoc]

theorem activePhase_sent (sendOk : Nat → Bool) (self : Client)
    (script : List RecvResult) (st : SrvState) :
    ∃ t, (activePhase sendOk self script st).sent = st.sent ++ t := by
  obtain ⟨t1, ht1⟩ := clientLoop_sent sendOk self.name script st
  unfold activePhase handlerTeardown
  rw [doBroadcast_eq]
  dsimp only
  rw [ht1]
  exact ⟨t1 ++ (((removeSock self.sock
      (clientLoop sendOk self.name script st).clients).filter
        fun c => sendOk c.sock).map
      fun c => (c.sock, fullLine "Server" ("用户 '" ++ self.name ++ "' 已离开聊天"))),
    List.append_assoc _ _ _⟩

theorem filter_sock_eq (cs : List Client) (c : Client)
    (h : (cs.map fun d => d.sock).Nodup) (hc : c ∈ cs) :
    cs.filter (fun d => d.sock = c.sock) = [c] := by
  induction cs with
  | nil => cases hc
  | cons d rest ih =>
    rw [List.map_cons, List.nodup_cons] at h
    rcases List.mem_cons.mp hc with rfl | hmem
    · rw [List.filter_cons_of_pos (by simp)]
      have : rest.filter (fun e => e.sock = c.sock) = [] := by
        rw [List.filter_eq_nil_iff]
        intro e he hed
        exact h.1 (List.mem_map.mpr ⟨e, he, by simpa using hed⟩)
      rw [this]
    · have hne : d.sock ≠ c.sock := by
        intro hcontra
        exact h.1 (List.mem_map.mpr ⟨c, hmem, hcontra.symm⟩)
      rw [List.filter_cons_of_neg (by simpa using hne)]
      exact ih h.2 hmem

theorem handshakeName_ne_empty (p : String) : handshakeName p ≠ "" := by
  unfold handshakeName
  split
  · decide
  · assumption

/-! ## Claims -/

/-- C1 counterexample: the claim that no lock-taking operation holds the
peer-registry lock during a blocking frame send fails on the code: in
`send_user_list_to_client` the `send_message` to the client runs while
the `lock_guard` is alive (server.cpp 260-279), and in `broadcast` every
`send_message` of the loop runs under the `lock_guard` taken at
server.cpp 237 — here shown at a one-peer registry. -/
theorem C1_counterexample :
    ioUnderLock (userListTrace 1) 0 = true ∧
      ioUnderLock (broadcastTrace (fun _ => true) [{ sock := 1, name := "alice" }]) 0 = true :=
  ⟨rfl, rfl⟩

/-- C1 (amended): the accept-time registration and the handler's removal
hold the registry lock only for the structural operation and perform no
frame I/O under it, but `broadcast` (whenever at least one peer is
registered) and the user-list send do perform their blocking frame
sends while holding the lock. -/
theorem C1_lock_discipline (sock : Nat) (sendOk : Nat → Bool) (c : Client)
    (cs : List Client) :
    ioUnderLock registerTrace 0 = false ∧
      ioUnderLock (removalTrace sock) 0 = false ∧
      ioUnderLock (userListTrace sock) 0 = true ∧
      ioUnderLock (broadcastTrace sendOk (c :: cs)) 0 = true := by
  refine ⟨rfl, rfl, rfl, ?_⟩
  simp [broadcastTrace, ioUnderLock]

/-- C2 counterexample: a reachable registry state (one accepted
connection, handshake not yet done) whose entry has the empty display
name, not "anonymous": `make_shared<Client>()` (server.cpp 412) leaves
`name` default-constructed, i.e. empty. -/
theorem C2_counterexample :
    Reachable [{ sock := 1, name := "" }] ∧
      ({ sock := 1, name := "" } : Client) ∈ ([{ sock := 1, name := "" }] : List Client) ∧
      ({ sock := 1, name := "" } : Client).name = "" ∧
      ({ sock := 1, name := "" } : Client).name ≠ "anonymous" :=
  ⟨Reachable.accept 1 [] Reachable.init, by decide, rfl, by decide⟩

/-- C2 (amended): every accepted connection is inserted into the
registry immediately at accept time with an *empty* display name — which
the server renders as "anonymous" wherever it displays names — and keeps
that empty name until its handshake frame renames it; the handshake name
is always nonempty (the payload, or "anonymous" for an empty payload),
so only pre-handshake entries can have an empty display name. -/
theorem C2_accept_names (sock : Nat) (cs : List Client) (p : String) :
    (acceptClient sock cs).getLast? = some { sock := sock, name := "" } ∧
      renderName "" = "anonymous" ∧
      handshakeName p ≠ "" ∧
      ∀ c ∈ renameSock sock (handshakeName p) cs, c.sock = sock → c.name ≠ "" := by
  refine ⟨?_, rfl, handshakeName_ne_empty p, ?_⟩
  · simp [acceptClient]
  · intro c hc hcs
    rcases List.mem_map.mp hc with ⟨d, _, hd⟩
    by_cases h : d.sock = sock
    · rw [if_pos h] at hd
      rw [← hd]
      exact handshakeName_ne_empty p
    · rw [if_neg h] at hd
      exact absurd (hd ▸ hcs) h

/-- C3: a broadcast call attempts delivery once to every peer registered
at call time (in order, no retry), closes the channel of and removes
every peer whose send fails, and leaves the registry containing exactly
the peers whose delivery succeeded. -/
theorem C3_broadcast_self_heal (sendOk : Nat → Bool) (frm msg : String)
    (st : SrvState) :
    (doBroadcast sendOk frm msg st).clients =
        (st.clients.filter fun c => sendOk c.sock) ∧
      (doBroadcast sendOk frm msg st).closed =
        st.closed ++ ((st.clients.filter fun c => !sendOk c.sock).map fun c => c.sock) ∧
      (doBroadcast sendOk frm msg st).sent =
        st.sent ++ ((st.clients.filter fun c => sendOk c.sock).map
          fun c => (c.sock, fullLine frm msg)) ∧
      (broadcastClients sendOk (fullLine frm msg) st.clients).att =
        st.clients.map fun c => c.sock := by
  rw [doBroadcast_eq]
  exact ⟨rfl, rfl, rfl, broadcastClients_att _ _ _⟩

/-- C4 counterexample: the round-trip fails for a payload of 2^32 bytes:
`send_message` truncates the length through `static_cast<uint32_t>`, so
the frame carries length 0 and no payload bytes, and decoding yields the
empty payload. -/
theorem C4_counterexample :
    recv_message (send_message (List.replicate (2 ^ 32) 0)) ≠
      some (List.replicate (2 ^ 32) 0, []) := by
  have h1 : send_message (List.replicate (2 ^ 32) 0) = [0, 0, 0, 0] := by
    show be32 ((List.replicate (2 ^ 32) (0 : Nat)).length % 2 ^ 32) ++
        (List.replicate (2 ^ 32) (0 : Nat)).take
          ((List.replicate (2 ^ 32) (0 : Nat)).length % 2 ^ 32) = [0, 0, 0, 0]
    rw [List.length_replicate, Nat.mod_self, List.take_zero, List.append_nil]
    rfl
  have h2 : recv_message [0, 0, 0, 0] = some ([], []) := rfl
  rw [h1, h2]
  intro h
  injection h with h'
  have h3 : ([] : List Nat) = List.replicate (2 ^ 32) 0 := congrArg Prod.fst h'
  have h4 := congrArg List.length h3
  rw [List.length_nil, List.length_replicate] at h4
  norm_num at h4

/-- C4 (amended): for every payload of fewer than 2^32 bytes — in
particular length 0, length 1 and multi-kilobyte payloads — decoding the
frame produced by encoding it yields exactly the original payload, with
the whole frame consumed; a zero-length frame is valid and decodes to
the empty payload. -/
theorem C4_roundtrip (p : List Nat) (h : p.length < 2 ^ 32) :
    recv_message (send_message p) = some (p, []) := by
  have hmod : p.length % 4294967296 = p.length := Nat.mod_eq_of_lt (by omega)
  have hsend : send_message p = be32 p.length ++ p := by
    simp [send_message, hmod, List.take_length]
  rw [recv_message, hsend]
  have h4 : recvExact 4 (be32 p.length ++ p) = some (be32 p.length, p) := by
    have hlen : (be32 p.length ++ p).length = 4 + p.length := by
      simp [be32_length]
    simp only [recvExact, hlen, if_pos (Nat.le_add_right 4 p.length)]
    have ht : (be32 p.length ++ p).take 4 = be32 p.length := by
      have := List.take_left (be32 p.length) p
      rwa [be32_length] at this
    have hd : (be32 p.length ++ p).drop 4 = p := by
      have := List.drop_left (be32 p.length) p
      rwa [be32_length] at this
    rw [ht, hd]
  rw [h4]
  simp only [beCombine_be32 p.length h]
  by_cases hz : p.length = 0
  · have : p = [] := List.eq_nil_of_length_eq_zero hz
    simp [hz, this]
  · simp only [if_neg hz, recvExact, le_refl, if_pos, List.take_length, List.drop_length]

/-- C4 witness: the round-trip at the concrete two-byte payload
`[104, 105]` ("hi"). -/
theorem C4_roundtrip_witness :
    ([104, 105] : List Nat).length < 2 ^ 32 ∧
      recv_message (send_message [104, 105]) = some ([104, 105], []) :=
  ⟨by norm_num, C4_roundtrip [104, 105] (by norm_num)⟩

/-- C5: a broadcast of (frm, msg) delivers to every peer registered at
call time and still reachable a frame whose payload is "[frm] msg"; and
when socket identities are unique (as they are by construction), a
reachable peer receives exactly that one frame from the broadcast. -/
theorem C5_broadcast_exactly_once (sendOk : Nat → Bool) (frm msg : String)
    (cs : List Client) (c : Client)
    (hnd : (cs.map fun d => d.sock).Nodup) (hc : c ∈ cs)
    (hok : sendOk c.sock = true) :
    (∀ d ∈ cs, sendOk d.sock = true →
      (d.sock, fullLine frm msg) ∈
        (broadcastClients sendOk (fullLine frm msg) cs).sent) ∧
      (broadcastClients sendOk (fullLine frm msg) cs).sent.filter
        (fun e => e.1 = c.sock) = [(c.sock, fullLine frm msg)] := by
  constructor
  · intro d hd hdok
    rw [broadcastClients_sent]
    exact List.mem_map.mpr ⟨d, List.mem_filter.mpr ⟨hd, hdok⟩, rfl⟩
  · rw [broadcastClients_sent, List.filter_map]
    have hcomp : ((fun e : Nat × String => decide (e.1 = c.sock)) ∘
        fun d : Client => (d.sock, fullLine frm msg)) =
        fun d : Client => decide (d.sock = c.sock) := rfl
    rw [hcomp]
    have hk : (cs.filter fun d => sendOk d.sock).filter
        (fun d => d.sock = c.sock) = [c] := by
      apply filter_sock_eq
      · exact hnd.sublist ((List.filter_sublist cs).map fun d => d.sock)
      · exact List.mem_filter.mpr ⟨hc, hok⟩
    rw [hk]
    rfl

/-- C5 witness: with "alice" (socket 1) and "bob" (socket 2) registered
and all channels healthy, broadcasting "hi" from "alice" delivers to
"bob" exactly one frame with payload "[alice] hi". -/
theorem C5_broadcast_exactly_once_witness :
    (∀ d ∈ ([{ sock := 1, name := "alice" }, { sock := 2, name := "bob" }] : List Client),
      (fun _ => true) d.sock = true →
      (d.sock, fullLine "alice" "hi") ∈
        (broadcastClients (fun _ => true) (fullLine "alice" "hi")
          [{ sock := 1, name := "alice" }, { sock := 2, name := "bob" }]).sent) ∧
      (broadcastClients (fun _ => true) (fullLine "alice" "hi")
        [{ sock := 1, name := "alice" }, { sock := 2, name := "bob" }]).sent.filter
        (fun e => e.1 = 2) = [(2, fullLine "alice" "hi")] :=
  C5_broadcast_exactly_once (fun _ => true) "alice" "hi"
    [{ sock := 1, name := "alice" }, { sock := 2, name := "bob" }]
    { sock := 2, name := "bob" } (by decide) (by decide) rfl

/-- C6: a handler receiving the exact payload "__quit__" from a
registered peer leaves its receive loop at once (the rest of the script
is not processed: the right-hand side does not mention it), closes the
peer's socket, removes its entry, and broadcasts the "Server" leave
announcement naming the peer to the remaining reachable peers — with no
channel failure required (the frame was received, not a failure). -/
theorem C6_quit_sentinel (sendOk : Nat → Bool) (self : Client)
    (rest : List RecvResult) (st : SrvState) :
    activePhase sendOk self (RecvResult.frame "__quit__" :: rest) st =
      { clients := (removeSock self.sock st.clients).filter fun c => sendOk c.sock,
        sent := st.sent ++ (((removeSock self.sock st.clients).filter
          fun c => sendOk c.sock).map
          fun c => (c.sock, fullLine "Server" ("用户 '" ++ self.name ++ "' 已离开聊天"))),
        closed := (st.closed ++ [self.sock]) ++
          (((removeSock self.sock st.clients).filter
            fun c => !sendOk c.sock).map fun c => c.sock) } := by
  unfold activePhase
  have hloop : clientLoop sendOk self.name
      (RecvResult.frame "__quit__" :: rest) st = st := by
    simp [clientLoop]
  rw [hloop]
  unfold handlerTeardown
  rw [doBroadcast_eq]

/-- C7: when the first frame of a new connection is received, the
handshake sets the registered entry's display name to the frame's
payload, except that an empty payload sets it to "anonymous"
(server.cpp 299). -/
theorem C7_handshake_sets_name (sock : Nat) (p : String) (cs : List Client) :
    ∀ c ∈ renameSock sock (handshakeName p) cs, c.sock = sock →
      c.name = if p = "" then "anonymous" else p := by
  intro c hc hcs
  rcases List.mem_map.mp hc with ⟨d, _, hd⟩
  by_cases h : d.sock = sock
  · rw [if_pos h] at hd
    rw [← hd]
    rfl
  · rw [if_neg h] at hd
    exact absurd (hd ▸ hcs) h

/-- C7 witness: the handshake with the empty payload renames the entry
for socket 1 to "anonymous". -/
theorem C7_handshake_sets_name_witness :
    ({ sock := 1, name := "anonymous" } : Client).name =
      if "" = "" then "anonymous" else "" :=
  C7_handshake_sets_name 1 "" [{ sock := 1, name := "bob" }]
    { sock := 1, name := "anonymous" } (by decide) rfl

/-- C8: with no positional argument the server listens on port 5555;
a socket, bind or listen failure at startup exits with code 1, and a
complete run through graceful shutdown exits with code 0. -/
theorem C8_default_port_exit_codes (env : SetupEnv) :
    serverMain none env =
      if env.socketOk && env.bindOk && env.listenOk then (0, some 5555)
      else (1, none) := by
  obtain ⟨s, b, l⟩ := env
  cases s <;> cases b <;> cases l <;> rfl

/-- C9: after a successful name handshake the new client is sent, before
the "Server" join announcement, exactly one frame whose payload is the
comma-separated rendered names of all other registered clients (empty
stored names rendered "anonymous", the client itself excluded by
socket), or the fixed no-other-users text when there are none; if that
send fails the client is closed and removed with nothing broadcast. -/
theorem C9_user_list_frame (sendOk : Nat → Bool) (self : Client) (p : String)
    (rest : List RecvResult) (st : SrvState) :
    (∀ cs : List Client, userListString self.sock cs =
      if removeSock self.sock cs = [] then "（无其他在线用户）"
      else "在线用户: " ++
        commaJoin ((removeSock self.sock cs).map fun c => renderName c.name)) ∧
      (sendOk self.sock = true →
        ∃ tail, (handle_client sendOk self (RecvResult.frame p :: rest) st).sent =
          st.sent ++
            [(self.sock, userListString self.sock
              (renameSock self.sock (handshakeName p) st.clients))] ++
            (((renameSock self.sock (handshakeName p) st.clients).filter
              fun c => sendOk c.sock).map
              fun c => (c.sock,
                fullLine "Server" ("用户 '" ++ handshakeName p ++ "' 已加入聊天"))) ++
            tail) ∧
      (sendOk self.sock = false →
        handle_client sendOk self (RecvResult.frame p :: rest) st =
          { clients := removeSock self.sock st.clients,
            sent := st.sent,
            closed := st.closed ++ [self.sock] }) := by
  refine ⟨fun cs => userListString_eq self.sock cs, ?_, ?_⟩
  · intro hok
    have hunf : handle_client sendOk self (RecvResult.frame p :: rest) st =
        activePhase sendOk { self with name := handshakeName p } rest
          (doBroadcast sendOk "Server" ("用户 '" ++ handshakeName p ++ "' 已加入聊天")
            { clients := renameSock self.sock (handshakeName p) st.clients,
              sent := st.sent ++ [(self.sock, userListString self.sock
                (renameSock self.sock (handshakeName p) st.clients))],
              closed := st.closed }) := by
      simp only [handle_client, hok, reduceIte]
    rw [hunf]
    obtain ⟨t, ht⟩ := activePhase_sent sendOk { self with name := handshakeName p }
      rest
      (doBroadcast sendOk "Server" ("用户 '" ++ handshakeName p ++ "' 已加入聊天")
        { clients := renameSock self.sock (handshakeName p) st.clients,
          sent := st.sent ++ [(self.sock, userListString self.sock
            (renameSock self.sock (handshakeName p) st.clients))],
          closed := st.closed })
    rw [ht, doBroadcast_eq]
    exact ⟨t, by dsimp only⟩
  · intro hbad
    have hunf : handle_client sendOk self (RecvResult.frame p :: rest) st =
        earlyCleanup self.sock
          { clients := renameSock self.sock (handshakeName p) st.clients,
            sent := st.sent, closed := st.closed } := by
      simp only [handle_client, hbad, Bool.false_eq_true, if_false]
    rw [hunf]
    unfold earlyCleanup
    rw [removeSock_renameSock]

/-- C10: when receiving the first (username) frame fails, the handler
closes the socket and removes the peer's entry, sends no frame at all
(so neither a join nor a leave announcement), and never renames any
entry — the registry is exactly the old one minus the peer.  The second
conjunct covers the channel delivering nothing at all. -/
theorem C10_username_recv_failure (sendOk : Nat → Bool) (self : Client)
    (rest : List RecvResult) (st : SrvState) :
    handle_client sendOk self (RecvResult.fail :: rest) st =
      { clients := removeSock self.sock st.clients,
        sent := st.sent,
        closed := st.closed ++ [self.sock] } ∧
      handle_client sendOk self [] st =
        { clients := removeSock self.sock st.clients,
          sent := st.sent,
          closed := st.closed ++ [self.sock] } :=
  ⟨rfl, rfl⟩

end ChatServer
